import Mathlib

/-!
Shallow embedding of the Swift storage driver
(`glance_store/_drivers/swift/store.py`) of the glance_store repository,
together with theorems checking its specification.

Modelling conventions:
* byte strings are `List Nat` (one `Nat` per byte);
* checksum/verifier accumulators (`hashlib.md5` objects) are modelled by the
  list of bytes fed to them via `update`;
* calls against the Swift backend are recorded as a trace of `SwiftOp`
  values, in the order the code issues them;
* backend failures (`swiftclient.ClientException` with an HTTP status, or
  any other exception) are injected through explicit parameters and
  reified as `SwiftErr`; what `add`/`delete` raise to their caller is a
  `RaisedErr`.
-/

namespace GlanceSwift

/-- One request issued against the Swift backend, as recorded in an
operation trace.  `putObject` is a segment or single-object PUT carrying
the number of body bytes sent; `putManifest` is the zero-byte PUT of the
primary object carrying the `X-Object-Manifest` header; `getContainerList`
is a `get_container` listing restricted to a name prefix;
`deleteManifestAtomic` is a `delete_object` with query string
`multipart-manifest=delete`. -/
inductive SwiftOp where
  | putObject (container name : String) (bytes : Nat)
  | putManifest (container name : String)
  | deleteObject (container name : String)
  | headObject (container name : String)
  | getContainerList (container pfx : String)
  | deleteManifestAtomic (container name : String)
  | deleteContainer (container : String)
  deriving DecidableEq, Repr

/-- A backend exception: `clientErr` is `swiftclient.ClientException` with
its `http_status` and message; `otherErr` is any other exception. -/
inductive SwiftErr where
  | clientErr (httpStatus : Nat) (msg : String)
  | otherErr (msg : String)
  deriving DecidableEq, Repr

/-- What a store operation raises to its caller: `exceptions.Duplicate`,
`glance_store.BackendException` (with its message),
`exceptions.NotFound`, a `ClientException` that was re-raised unchanged
(`clientPassthrough`), or any other exception propagated unchanged. -/
inductive RaisedErr where
  | duplicate
  | backendFailure (msg : String)
  | notFound
  | clientPassthrough (httpStatus : Nat) (msg : String)
  | other (msg : String)
  deriving DecidableEq, Repr

/-- Python's `"%05d" % n`: the decimal representation of `n`, left-padded
with `'0'` to a minimum width of 5. -/
def pad5 (n : Nat) : String :=
  String.mk (List.replicate (5 - (Nat.repr n).length) '0') ++ Nat.repr n

/-- Segment name `"%s-%05d" % (location.obj, chunk_id)` (store.py line 584). -/
def segName (obj : String) (chunkId : Nat) : String :=
  obj ++ "-" ++ pad5 chunkId

end GlanceSwift

namespace GlanceSwift

/-! ### ChunkReader (store.py lines 1122-1150) -/

/-- State of a `ChunkReader`.  `fd` is the part of the wrapped source
stream not yet consumed (the construction-time probe has already been
removed from it); `checksum` (and `verifier`, when present) is the list of
bytes fed to the accumulator so far; `byteone` is the probed byte (empty
when the source was empty; in Python it is a `bytes` value, never `None`). -/
structure ChunkReader where
  fd : List Nat
  checksum : List Nat
  total : Nat
  verifier : Option (List Nat)
  bytes_read : Nat
  is_zero_size : Bool
  byteone : List Nat
  deriving DecidableEq, Repr

/-- `ChunkReader.__init__`: eagerly reads one byte from the source
(`fd.read(1)`) and sets `is_zero_size` when that read came back empty. -/
def ChunkReader.init (fd : List Nat) (checksum : List Nat) (total : Nat)
    (verifier : Option (List Nat)) : ChunkReader :=
  { fd := fd.drop 1
    checksum := checksum
    total := total
    verifier := verifier
    bytes_read := 0
    is_zero_size := (fd.take 1).isEmpty
    byteone := fd.take 1 }

/-- `ChunkReader.do_read`: on the first read of a positive count the probed
byte is replayed in front of `fd.read(i - 1)` (the Python guard
`self.byteone is not None` is always true, `byteone` being a `bytes`
value).  Returns the bytes read and the reader with its source advanced. -/
def ChunkReader.do_read (r : ChunkReader) (i : Nat) : List Nat × ChunkReader :=
  if r.bytes_read = 0 ∧ 0 < i then
    (r.byteone ++ r.fd.take (i - 1), { r with fd := r.fd.drop (i - 1) })
  else
    (r.fd.take i, { r with fd := r.fd.drop i })

/-- `ChunkReader.read`: clamps the requested count to the remaining budget
`total - bytes_read`, reads via `do_read`, then updates `bytes_read`, the
checksum and (when present) the verifier with exactly the returned bytes. -/
def ChunkReader.read (r : ChunkReader) (n : Nat) : List Nat × ChunkReader :=
  let left := r.total - r.bytes_read
  let i := if n > left then left else n
  let res := r.do_read i
  (res.1,
    { res.2 with
        bytes_read := res.2.bytes_read + res.1.length
        checksum := res.2.checksum ++ res.1
        verifier := res.2.verifier.map (fun v => v ++ res.1) })

end GlanceSwift

namespace GlanceSwift

/-! ### Resumable download iterator `swift_retry_iter` (store.py lines 147-196) -/

/-- One backend response stream: the byte chunks it yields before it ends,
and whether it ends by raising `swiftclient.ClientException` (`fails =
true`) or by normal exhaustion (`fails = false`).  The exception is caught
and logged by `swift_retry_iter`, so control reaches the same
`bytes_read != length` check either way; `fails` therefore does not
influence the iterator's behaviour. -/
structure RespStream where
  chunks : List (List Nat)
  fails : Bool
  deriving DecidableEq, Repr

/-- The `while retries <= retry_count` loop of `swift_retry_iter`.  The
loop counter `retries` (which only ever grows while `retries <
retry_count`) is modelled by the remaining budget `fuel = retry_count -
retries`.  Each round yields the current stream's chunks, then: if the
cumulative `bytes_read` equals `length`, stop; otherwise, if the budget is
exhausted, stop silently; otherwise re-request a ranged stream starting at
offset `bytes_read` via `getObj` and continue.  Returns the yielded chunks
and the list of offsets of the ranged re-requests, in order. -/
def retryLoop (length : Nat) (getObj : Nat → RespStream) :
    Nat → RespStream → Nat → List (List Nat) × List Nat
  | fuel, cur, bytesRead =>
    let br := bytesRead + (cur.chunks.map List.length).sum
    if br = length then (cur.chunks, [])
    else
      match fuel with
      | 0 => (cur.chunks, [])
      | fuel' + 1 =>
        let next := retryLoop length getObj fuel' (getObj br) br
        (cur.chunks ++ next.1, br :: next.2)

/-- `swift_retry_iter(resp_iter, length, store, location, manager)`.
`contentLength` is the `length` argument (0 when unknown); `lenAttr` is
the stream's `len` attribute when it has one (`none` for a plain
iterator; the `six.BytesIO` special case at the top of the function is the
same length-recovery for an in-memory stream and is subsumed by
`lenAttr`).  `getObj` stands for `store._get_object(location, manager,
bytes_read)`, returning the stream of a ranged re-request. -/
def swift_retry_iter (resp : RespStream) (contentLength : Nat)
    (lenAttr : Option Nat) (retryCount : Nat) (getObj : Nat → RespStream) :
    List (List Nat) × List Nat :=
  let length := if contentLength ≠ 0 then contentLength else lenAttr.getD 0
  retryLoop length getObj retryCount resp 0

end GlanceSwift

namespace GlanceSwift

/-! ### Segmented upload: `BaseStore.add` (store.py lines 524-662) -/

/-- Message of the `glance_store.BackendException` raised by `add` for a
non-conflict `ClientException` (store.py lines 658-660): the format string
`"Failed to add object to Swift.\nGot error from Swift: %s."` applied to
the backend's message. -/
def addFailMsg (msg : String) : String :=
  "Failed to add object to Swift.\nGot error from Swift: " ++ msg ++ "."

/-- The outer `except swiftclient.ClientException` handler of `add`
(store.py lines 653-662): a conflict (HTTP 409) becomes
`exceptions.Duplicate`, any other `ClientException` becomes a
`BackendException` carrying the backend's message; a non-`ClientException`
is not caught and propagates unchanged. -/
def addRaise : SwiftErr → RaisedErr
  | .clientErr st m =>
    if st = 409 then RaisedErr.duplicate else RaisedErr.backendFailure (addFailMsg m)
  | .otherErr m => RaisedErr.other m

/-- `BaseStore._delete_stale_chunks` (store.py lines 513-522): attempts a
`delete_object` for every name in `chunk_list`; a failing delete
(`delFails`) is caught inside the per-chunk `try`, logged, and does not
stop the remaining deletes, so every chunk is attempted regardless of
`delFails`. -/
def delete_stale_chunks (container : String) (delFails : String → Bool)
    (chunk_list : List String) : List SwiftOp :=
  chunk_list.map (fun chunk => SwiftOp.deleteObject container chunk)

/-- Result of the `while True` segment-upload loop of `add`:
`ok written size etag` when the loop breaks (either `left == 0` or a
zero-size reader) carrying the successfully written `(name, bytes)` pairs,
the final object size and the checksummed bytes; `failed written cleanup
e` when a segment PUT raises `e`, after `_delete_stale_chunks` issued the
`cleanup` deletes and the original exception was re-raised
(`excutils.save_and_reraise_exception`). -/
inductive LoopOutcome where
  | ok (written : List (String × Nat)) (size : Nat) (etag : List Nat)
  | failed (written : List (String × Nat)) (cleanup : List SwiftOp) (e : SwiftErr)
  deriving DecidableEq, Repr

/-- The `while True` loop of the segmented branch of `add` (store.py lines
572-624) followed by the post-loop size fix-up (lines 623-624).  State:
the unread source `fd`, the shared md5 `checksum`, the `written_chunks`
list (with each segment's byte count), `combined = combined_chunks_size`
and `chunk_id`.  Each segment PUT drains a fresh `ChunkReader` bounded by
`chunk_size`, so it stores `min chunk_size fd.length` bytes; the reader's
construction-time probe consumes one source byte even when the PUT stores
none, so every iteration consumes at least one byte of `fd` and the loop
performs at most `fd.length` iterations: `fuel` is initialised to
`fd.length` by `BaseStore.add` and the `fuel = 0` branch is unreachable.
`putErr chunk_id` injects a PUT failure for that chunk. -/
def addChunkLoop (container obj : String) (segSize imageSize : Nat)
    (putErr : Nat → Option SwiftErr) (delFails : String → Bool) :
    Nat → List Nat → List Nat → List (String × Nat) → Nat → Nat → LoopOutcome
  | fuel, fd, checksum, written, combined, chunkId =>
    if imageSize ≠ 0 ∧ imageSize - combined = 0 then
      -- `left == 0`: break out of the loop; `add` then writes the manifest
      LoopOutcome.ok written (if imageSize = 0 then combined else imageSize) checksum
    else
      -- chunk_size = large_object_chunk_size, clamped to `left` when the size is known
      let chunkSize := if imageSize = 0 then segSize else min segSize (imageSize - combined)
      if fd.isEmpty then
        -- reader.is_zero_size: break without writing a trailing zero-length chunk
        LoopOutcome.ok written (if imageSize = 0 then combined else imageSize) checksum
      else
        match putErr chunkId with
        | some e =>
          LoopOutcome.failed written
            (delete_stale_chunks container delFails (written.map Prod.fst)) e
        | none =>
          let bytesRead := min chunkSize fd.length
          -- the PUT stores `bytesRead` bytes; the reader's probe consumed one
          -- byte of `fd` even when `bytesRead = 0` (a zero byte budget)
          let consumed := max 1 bytesRead
          match fuel with
          | 0 => LoopOutcome.failed written [] (SwiftErr.otherErr "")
          | fuel' + 1 =>
            addChunkLoop container obj segSize imageSize putErr delFails
              fuel' (fd.drop consumed) (checksum ++ fd.take bytesRead)
              (written ++ [(segName obj chunkId, bytesRead)])
              (combined + bytesRead) (chunkId + 1)

/-- Result of `BaseStore.add`: the trace of object-level backend requests
together with either the returned size and checksummed bytes, or the error
raised to the caller.  (Container bookkeeping —
`_create_container_if_missing` — and the returned URI are not part of the
trace.) -/
inductive AddResult where
  | ok (ops : List SwiftOp) (size : Nat) (etag : List Nat)
  | err (ops : List SwiftOp) (e : RaisedErr)
  deriving DecidableEq, Repr

/-- The operation trace of an `AddResult`. -/
def AddResult.ops : AddResult → List SwiftOp
  | .ok ops _ _ => ops
  | .err ops _ => ops

/-- `BaseStore.add(image_id, image_file, image_size, ...)` (store.py lines
524-662).  `largeObjectSize` and `segSize` are `self.large_object_size`
and `self.large_object_chunk_size` in bytes.  `need_chunks = (image_size
== 0) or (image_size >= large_object_size)`; without chunking the image is
stored with a single PUT (whether or not a verifier wraps the stream in a
`ChunkReader`, the trace is the same single PUT); with chunking the
segment loop runs and, on success, the dynamic-large-object manifest is
PUT at the primary name (lines 626-639).  `singleErr` injects a failure of
the single PUT, `putErr` of each segment PUT. -/
def BaseStore.add (container obj : String) (largeObjectSize segSize : Nat)
    (fd : List Nat) (imageSize : Nat) (putErr : Nat → Option SwiftErr)
    (singleErr : Option SwiftErr) (delFails : String → Bool) : AddResult :=
  if ¬ (imageSize = 0 ∨ largeObjectSize ≤ imageSize) then
    -- image size known and below the threshold: one regular PUT
    match singleErr with
    | none =>
      AddResult.ok [SwiftOp.putObject container obj (min imageSize fd.length)]
        imageSize (fd.take (min imageSize fd.length))
    | some e => AddResult.err [] (addRaise e)
  else
    match addChunkLoop container obj segSize imageSize putErr delFails
        fd.length fd [] [] 0 1 with
    | .ok written size etag =>
      AddResult.ok
        ((written.map (fun w => SwiftOp.putObject container w.1 w.2))
          ++ [SwiftOp.putManifest container obj]) size etag
    | .failed written cleanup e =>
      AddResult.err
        ((written.map (fun w => SwiftOp.putObject container w.1 w.2)) ++ cleanup)
        (addRaise e)

end GlanceSwift

namespace GlanceSwift

/-! ### `BaseStore.delete` and `MultiTenantStore.delete` (store.py lines 664-719, 988-993) -/

/-- `_is_slo(slo_header)` (store.py lines 410-415): true exactly when the
header is present and equals `"true"` case-insensitively. -/
def is_slo (slo_header : Option String) : Bool :=
  match slo_header with
  | some s => s.toLower == "true"
  | none => false

/-- Split a list of characters at the first occurrence of `c`. -/
def splitFirst (c : Char) : List Char → Option (List Char × List Char)
  | [] => none
  | x :: xs =>
    if x = c then some ([], xs)
    else (splitFirst c xs).map (fun p => (x :: p.1, p.2))

/-- Python's `s.split('/', 1)` followed by unpacking into two variables
(store.py line 695): splits at the first `'/'`; when the string contains
no `'/'`, the unpacking raises `ValueError` (modelled as `none`). -/
def splitOnce (s : String) : Option (String × String) :=
  (splitFirst '/' s.data).map (fun p => (String.mk p.1, String.mk p.2))

/-- `BaseStore.delete` (store.py lines 664-719).  Backend behaviour is
supplied explicitly: `headRes` is the outcome of the initial
`head_object` (the `(x-object-manifest, x-static-large-object)` headers,
or an exception); `segments` is the listing returned by `get_container`
for the dynamic-manifest prefix; `segDelFails` marks segment deletes that
raise a `ClientException` (caught and logged, lines 703-709); `delErr`
injects a failure of the final `delete_object` (or of the atomic SLO
delete).  Returns the operation trace and the error raised to the caller,
mapped by the outer handler (lines 714-719: HTTP 404 becomes
`exceptions.NotFound`, any other `ClientException` is re-raised
unchanged). -/
def BaseStore.delete (container obj : String)
    (headRes : Except SwiftErr (Option String × Option String))
    (segments : List String) (segDelFails : String → Bool)
    (delErr : Option SwiftErr) : List SwiftOp × Option RaisedErr :=
  -- the outer except-handler of lines 714-719
  let outer : SwiftErr → RaisedErr := fun e =>
    match e with
    | .clientErr st m =>
      if st = 404 then RaisedErr.notFound else RaisedErr.clientPassthrough st m
    | .otherErr m => RaisedErr.other m
  let hops := [SwiftOp.headObject container obj]
  -- inner `try` around head_object (lines 677-684): a 404 is swallowed and
  -- both manifest headers stay `None`; any other ClientException is
  -- re-raised into the outer handler; a non-ClientException propagates
  let proceed : Option String → Option String → List SwiftOp × Option RaisedErr :=
    fun dlo_manifest slo_manifest =>
      if is_slo slo_manifest then
        (hops ++ [SwiftOp.deleteManifestAtomic container obj], delErr.map outer)
      else
        match dlo_manifest with
        | some m =>
          match splitOnce m with
          | none => (hops, some (RaisedErr.other "ValueError"))
          | some (obj_container, obj_prefix) =>
            (hops
              ++ [SwiftOp.getContainerList obj_container obj_prefix]
              ++ segments.map (fun seg => SwiftOp.deleteObject obj_container seg)
              ++ [SwiftOp.deleteObject container obj],
              delErr.map outer)
        | none =>
          (hops ++ [SwiftOp.deleteObject container obj], delErr.map outer)
  match headRes with
  | .ok (dlo_manifest, slo_manifest) => proceed dlo_manifest slo_manifest
  | .error (.clientErr st m) =>
    if st = 404 then proceed none none
    else (hops, some (outer (.clientErr st m)))
  | .error (.otherErr m) => (hops, some (RaisedErr.other m))

/-- `MultiTenantStore.delete` (store.py lines 988-993): runs
`BaseStore.delete` and, when it returns without raising, additionally
deletes the container that holds the object. -/
def MultiTenantStore.delete (container obj : String)
    (headRes : Except SwiftErr (Option String × Option String))
    (segments : List String) (segDelFails : String → Bool)
    (delErr : Option SwiftErr) : List SwiftOp × Option RaisedErr :=
  let r := BaseStore.delete container obj headRes segments segDelFails delErr
  match r.2 with
  | none => (r.1 ++ [SwiftOp.deleteContainer container], none)
  | some e => (r.1, some e)

end GlanceSwift

namespace GlanceSwift

/-! ### Theorems about `ChunkReader` (claims C5 and C10) -/

/-- C5: for every `ChunkReader` (whose probe buffer holds at most one
byte, as established at construction) and every call `read(n)`: the
returned bytes number at most `n` and at most the remaining budget
`total - bytes_read`; the checksum and, when present, the verifier are
updated with exactly the returned bytes; `bytes_read` grows by exactly the
returned length; and the probed byte is replayed at the front of the first
read whose clamped request is positive. -/
theorem ChunkReader.read_spec (r : ChunkReader) (n : Nat)
    (hbyte : r.byteone.length ≤ 1) :
    (r.read n).1.length ≤ n
    ∧ (r.read n).1.length ≤ r.total - r.bytes_read
    ∧ (r.read n).2.checksum = r.checksum ++ (r.read n).1
    ∧ (r.read n).2.verifier = r.verifier.map (fun v => v ++ (r.read n).1)
    ∧ (r.read n).2.bytes_read = r.bytes_read + (r.read n).1.length
    ∧ (r.bytes_read = 0 → 0 < min n r.total →
        ∃ rest, (r.read n).1 = r.byteone ++ rest) := by
  have hmin : (if n > r.total - r.bytes_read then r.total - r.bytes_read else n)
      = min n (r.total - r.bytes_read) := by
    rcases Nat.lt_or_ge (r.total - r.bytes_read) n with h | h
    · simp [Nat.min_eq_right (Nat.le_of_lt h), h]
    · have : ¬ (n > r.total - r.bytes_read) := by omega
      simp [this, Nat.min_eq_left h]
  simp only [ChunkReader.read, ChunkReader.do_read, hmin]
  split
  next h =>
    obtain ⟨h0, hi⟩ := h
    simp only [List.length_append, List.length_take]
    refine ⟨by omega, by omega, by trivial, by trivial, by trivial, fun _ _ => ⟨_, rfl⟩⟩
  next h =>
    simp only [List.length_take]
    refine ⟨by omega, by omega, by trivial, by trivial, by trivial, fun h0 hpos => ?_⟩
    exfalso
    apply h
    constructor
    · exact h0
    · rw [h0]
      simpa using hpos

/-- C5 witness: `ChunkReader.read_spec` at a concrete reader. -/
theorem ChunkReader.read_spec_witness :
    (ChunkReader.init [10, 20, 30] [] 2 none).byteone.length ≤ 1
    ∧ ((ChunkReader.init [10, 20, 30] [] 2 none).read 5).1.length ≤ 5 :=
  ⟨by decide, (ChunkReader.read_spec (ChunkReader.init [10, 20, 30] [] 2 none) 5 (by decide)).1⟩

/-- C10: a `ChunkReader` with byte budget 0 over a non-empty source
consumes the probe byte at construction, reports `is_zero_size = false`,
never feeds the probe byte (or anything else) to the checksum or verifier,
and every `read(n)` returns no bytes and leaves the reader unchanged (so
every subsequent read does the same and the probe byte is never returned
to a caller). -/
theorem ChunkReader.zero_budget_spec (fd checksum : List Nat)
    (verifier : Option (List Nat)) (hfd : fd ≠ []) :
    (ChunkReader.init fd checksum 0 verifier).fd = fd.drop 1
    ∧ (ChunkReader.init fd checksum 0 verifier).is_zero_size = false
    ∧ (ChunkReader.init fd checksum 0 verifier).checksum = checksum
    ∧ (ChunkReader.init fd checksum 0 verifier).verifier = verifier
    ∧ ∀ n, (ChunkReader.init fd checksum 0 verifier).read n
        = ([], ChunkReader.init fd checksum 0 verifier) := by
  obtain ⟨a, as, rfl⟩ : ∃ a as, fd = a :: as := by
    cases fd with
    | nil => exact absurd rfl hfd
    | cons a as => exact ⟨a, as, rfl⟩
  refine ⟨rfl, rfl, rfl, rfl, fun n => ?_⟩
  simp only [ChunkReader.read, ChunkReader.do_read, ChunkReader.init]
  have hi : (if n > 0 - 0 then 0 - 0 else n) = 0 := by split <;> omega
  rw [hi]
  simp

/-- C10 witness: `ChunkReader.zero_budget_spec` at a concrete source. -/
theorem ChunkReader.zero_budget_spec_witness :
    ([3, 4] : List Nat) ≠ []
    ∧ (ChunkReader.init [3, 4] [] 0 none).is_zero_size = false :=
  ⟨by decide, (ChunkReader.zero_budget_spec [3, 4] [] none (by decide)).2.1⟩

end GlanceSwift

namespace GlanceSwift

/-! ### Theorems about `delete` (claims C8 and C9) -/

/-- C8: deleting an object whose metadata carries a dynamic-manifest
(`x-object-manifest`) marker issues exactly one list-by-prefix call and
one delete per listed segment, then deletes the primary object; the trace
is the same for every pattern of per-segment delete failures
(`segDelFails`), since those are caught and logged. -/
theorem BaseStore.delete_dlo_trace (container obj oc pfx m : String)
    (segments : List String) (segDelFails : String → Bool) (slo : Option String)
    (hslo : is_slo slo = false) (hsplit : splitOnce m = some (oc, pfx)) :
    BaseStore.delete container obj (Except.ok (some m, slo)) segments segDelFails none
      = ([SwiftOp.headObject container obj, SwiftOp.getContainerList oc pfx]
          ++ segments.map (fun seg => SwiftOp.deleteObject oc seg)
          ++ [SwiftOp.deleteObject container obj], none) := by
  simp [BaseStore.delete, hslo, hsplit]

/-- C8 witness: `BaseStore.delete_dlo_trace` at a concrete dynamic
manifest, with every per-segment delete failing. -/
theorem BaseStore.delete_dlo_trace_witness :
    is_slo none = false
    ∧ splitOnce "cont/img-" = some ("cont", "img-")
    ∧ BaseStore.delete "c" "img" (Except.ok (some "cont/img-", none))
        ["img-00001", "img-00002"] (fun _ => true) none
      = ([SwiftOp.headObject "c" "img", SwiftOp.getContainerList "cont" "img-"]
          ++ (["img-00001", "img-00002"] : List String).map
              (fun seg => SwiftOp.deleteObject "cont" seg)
          ++ [SwiftOp.deleteObject "c" "img"], none) :=
  ⟨by decide, by decide,
    BaseStore.delete_dlo_trace "c" "img" "cont" "img-" "cont/img-"
      ["img-00001", "img-00002"] (fun _ => true) none (by decide) (by decide)⟩

/-- C9: a delete through the multi-tenant store variant that completes
without raising additionally deletes the container holding the object
(after the primary object and any segments), so its effect is not limited
to the object and its segments. -/
theorem MultiTenantStore.delete_container_trace (container obj : String)
    (headRes : Except SwiftErr (Option String × Option String))
    (segments : List String) (segDelFails : String → Bool) (delErr : Option SwiftErr)
    (h : (BaseStore.delete container obj headRes segments segDelFails delErr).2 = none) :
    MultiTenantStore.delete container obj headRes segments segDelFails delErr
      = ((BaseStore.delete container obj headRes segments segDelFails delErr).1
          ++ [SwiftOp.deleteContainer container], none)
    ∧ SwiftOp.deleteContainer container ∈
        (MultiTenantStore.delete container obj headRes segments segDelFails delErr).1 := by
  have he : MultiTenantStore.delete container obj headRes segments segDelFails delErr
      = ((BaseStore.delete container obj headRes segments segDelFails delErr).1
          ++ [SwiftOp.deleteContainer container], none) := by
    simp only [MultiTenantStore.delete]
    rw [h]
  refine ⟨he, ?_⟩
  rw [he]
  simp

/-- C9 witness: `MultiTenantStore.delete_container_trace` at a concrete
successful delete. -/
theorem MultiTenantStore.delete_container_trace_witness :
    (BaseStore.delete "c" "img" (Except.ok (none, none)) [] (fun _ => false) none).2 = none
    ∧ SwiftOp.deleteContainer "c" ∈
        (MultiTenantStore.delete "c" "img" (Except.ok (none, none)) []
          (fun _ => false) none).1 :=
  ⟨by decide,
    (MultiTenantStore.delete_container_trace "c" "img" (Except.ok (none, none)) []
      (fun _ => false) none (by decide)).2⟩

end GlanceSwift

namespace GlanceSwift

/-! ### Theorems about small and failing uploads (claims C6 and C7) -/

/-- C6 counterexample: with segment size 4 bytes and large-object
threshold 2 bytes, an `add` of declared size 3 (so `0 < s <
segment_size`) takes the segmented path, performing two object writes —
a segment PUT and the manifest PUT — rather than a single PUT with no
manifest.  Segmentation is decided against the threshold alone, not the
segment size. -/
theorem add_small_below_segment_size_cex :
    (0 < 3 ∧ 3 < 4)
    ∧ SwiftOp.putManifest "c" "obj" ∈
        (BaseStore.add "c" "obj" 2 4 [9, 8, 7] 3 (fun _ => none) none (fun _ => false)).ops
    ∧ (BaseStore.add "c" "obj" 2 4 [9, 8, 7] 3 (fun _ => none) none (fun _ => false)).ops.length
        = 2 := by
  decide

/-- C6 (amended): for every add with known declared size `0 < s` strictly
below the large-object threshold, and any segment size, `add` performs
exactly one backend object write — a single PUT of the primary object —
and writes no manifest. -/
theorem BaseStore.add_below_threshold_single_put (container obj : String)
    (largeObjectSize segSize s : Nat) (fd : List Nat)
    (hs : 0 < s) (hlt : s < largeObjectSize) (hfd : fd.length = s) :
    BaseStore.add container obj largeObjectSize segSize fd s (fun _ => none) none
        (fun _ => false)
      = AddResult.ok [SwiftOp.putObject container obj s] s fd := by
  subst hfd
  have hnc : ¬ (fd.length = 0 ∨ largeObjectSize ≤ fd.length) := by omega
  rw [BaseStore.add, if_pos hnc]
  simp [List.take_length]

/-- C6 witness: `BaseStore.add_below_threshold_single_put` at a concrete
small image. -/
theorem BaseStore.add_below_threshold_single_put_witness :
    (0 < 3 ∧ 3 < 5 ∧ ([9, 8, 7] : List Nat).length = 3)
    ∧ BaseStore.add "c" "obj" 5 4 [9, 8, 7] 3 (fun _ => none) none (fun _ => false)
        = AddResult.ok [SwiftOp.putObject "c" "obj" 3] 3 [9, 8, 7] :=
  ⟨by decide,
    BaseStore.add_below_threshold_single_put "c" "obj" 5 4 3 [9, 8, 7]
      (by decide) (by decide) (by decide)⟩

/-- C7: a backend `ClientException` raised during `add` with HTTP status
409 (conflict: the primary name already exists) surfaces as a Duplicate
error; any other `ClientException` surfaces as a `BackendException`
whose message carries the backend's message — on the single-PUT path and
on the segmented path alike. -/
theorem BaseStore.add_error_mapping (container obj : String)
    (largeObjectSize segSize s : Nat) (fd : List Nat) (st : Nat) (m : String)
    (delFails : String → Bool) :
    (0 < s → s < largeObjectSize →
      BaseStore.add container obj largeObjectSize segSize fd s (fun _ => none)
          (some (SwiftErr.clientErr 409 m)) delFails
        = AddResult.err [] RaisedErr.duplicate)
    ∧ (0 < s → s < largeObjectSize → st ≠ 409 →
      BaseStore.add container obj largeObjectSize segSize fd s (fun _ => none)
          (some (SwiftErr.clientErr st m)) delFails
        = AddResult.err [] (RaisedErr.backendFailure (addFailMsg m)))
    ∧ ((s = 0 ∨ largeObjectSize ≤ s) → fd ≠ [] →
      BaseStore.add container obj largeObjectSize segSize fd s
          (fun _ => some (SwiftErr.clientErr st m)) none delFails
        = AddResult.err [] (if st = 409 then RaisedErr.duplicate
            else RaisedErr.backendFailure (addFailMsg m)))
    ∧ addFailMsg m = "Failed to add object to Swift.\nGot error from Swift: " ++ m ++ "." := by
  refine ⟨fun hs hlt => ?_, fun hs hlt hne => ?_, fun hchunks hfd => ?_, rfl⟩
  · have hnc : ¬ (s = 0 ∨ largeObjectSize ≤ s) := by omega
    rw [BaseStore.add, if_pos hnc]
    simp [addRaise]
  · have hnc : ¬ (s = 0 ∨ largeObjectSize ≤ s) := by omega
    rw [BaseStore.add, if_pos hnc]
    simp [addRaise, hne]
  · have h1 : ¬ (s ≠ 0 ∧ s - 0 = 0) := by omega
    obtain ⟨a, as, rfl⟩ : ∃ a as, fd = a :: as := by
      cases fd with
      | nil => exact absurd rfl hfd
      | cons a as => exact ⟨a, as, rfl⟩
    rw [BaseStore.add, if_neg (not_not_intro hchunks)]
    rw [addChunkLoop]
    simp [h1, addRaise, delete_stale_chunks]

/-- C7 witness: `BaseStore.add_error_mapping` at a concrete conflicting
single PUT. -/
theorem BaseStore.add_error_mapping_witness :
    (0 < 3 ∧ 3 < 5)
    ∧ BaseStore.add "c" "img" 5 4 [1, 2, 3] 3 (fun _ => none)
        (some (SwiftErr.clientErr 409 "oops")) (fun _ => false)
      = AddResult.err [] RaisedErr.duplicate :=
  ⟨by decide,
    (BaseStore.add_error_mapping "c" "img" 5 4 3 [1, 2, 3] 409 "oops"
      (fun _ => false)).1 (by decide) (by decide)⟩

end GlanceSwift

namespace GlanceSwift

/-! ### Theorems about `swift_retry_iter` (claims C3 and C4) -/

/-- Unfolding lemma: the loop stops as soon as the cumulative byte count
reaches the expected length. -/
theorem retryLoop_done (len : Nat) (getObj : Nat → RespStream) (fuel : Nat)
    (cur : RespStream) (br0 : Nat)
    (h : br0 + (cur.chunks.map List.length).sum = len) :
    retryLoop len getObj fuel cur br0 = (cur.chunks, []) := by
  rw [retryLoop.eq_def]
  simp [h]

/-- Unfolding lemma: with the retry budget exhausted the loop stops
silently even though the byte count differs from the expected length. -/
theorem retryLoop_exhausted (len : Nat) (getObj : Nat → RespStream)
    (cur : RespStream) (br0 : Nat)
    (h : br0 + (cur.chunks.map List.length).sum ≠ len) :
    retryLoop len getObj 0 cur br0 = (cur.chunks, []) := by
  rw [retryLoop.eq_def]
  simp [h]

/-- Unfolding lemma: with budget remaining and a short byte count, the
loop issues a ranged re-request at the current offset and continues. -/
theorem retryLoop_retry (len : Nat) (getObj : Nat → RespStream) (fuel : Nat)
    (cur : RespStream) (br0 : Nat)
    (h : br0 + (cur.chunks.map List.length).sum ≠ len) :
    retryLoop len getObj (fuel + 1) cur br0
      = (cur.chunks ++ (retryLoop len getObj fuel
            (getObj (br0 + (cur.chunks.map List.length).sum))
            (br0 + (cur.chunks.map List.length).sum)).1,
         (br0 + (cur.chunks.map List.length).sum)
           :: (retryLoop len getObj fuel
                (getObj (br0 + (cur.chunks.map List.length).sum))
                (br0 + (cur.chunks.map List.length).sum)).2) := by
  conv_lhs => rw [retryLoop.eq_def]
  simp [h]

/-- C3 counterexample: known length 3, retry budget 1, every stream fails
after delivering one byte starting at the requested offset (byte values
equal offsets, so resumed streams genuinely start where requested).  The
iterator stops after the budget is spent, yielding 2 bytes, not the
expected 3: without an assumption that the streams deliver all remaining
bytes within the budget, the download is silently truncated. -/
theorem swift_retry_iter_short_read_cex :
    swift_retry_iter ⟨[[0]], true⟩ 3 none 1 (fun o => ⟨[[o]], true⟩) = ([[0], [1]], [1])
    ∧ (swift_retry_iter ⟨[[0]], true⟩ 3 none 1 (fun o => ⟨[[o]], true⟩)).1.flatten.length = 2
    ∧ (2 : Nat) ≠ 3 := by
  decide

/-- C3 (amended): with known length `L = data.length`, retry budget
`r ≥ 1`, an initial stream that fails after delivering the first
`0 < b < L` bytes, and ranged re-requests that genuinely start at the
requested offset and deliver all remaining bytes, the iterator yields
exactly the `L` source bytes in order with no duplication and no gap
(its flattened output is `data` itself), makes one re-request at offset
`b` — the number of bytes already yielded — and acquires `2 ≤ r + 1`
streams in total. -/
theorem swift_retry_iter_resumed_download (data : List Nat) (b r : Nat)
    (initChunks : List (List Nat)) (getObj : Nat → RespStream)
    (hb : 0 < b) (hbL : b < data.length) (hr : 1 ≤ r)
    (hinit : initChunks.flatten = data.take b)
    (hget : ∀ o, 0 < o → o < data.length → (getObj o).chunks = [data.drop o]) :
    swift_retry_iter ⟨initChunks, true⟩ data.length none r getObj
      = (initChunks ++ [data.drop b], [b])
    ∧ (initChunks ++ [data.drop b]).flatten = data
    ∧ ([b] : List Nat).length + 1 ≤ r + 1 := by
  have hL : data.length ≠ 0 := by omega
  have hsum : (initChunks.map List.length).sum = b := by
    have h1 := congrArg List.length hinit
    rw [List.length_flatten, List.length_take] at h1
    omega
  refine ⟨?_, ?_, by simp [hr]⟩
  · simp only [swift_retry_iter]
    rw [if_pos hL]
    obtain ⟨r', rfl⟩ : ∃ r', r = r' + 1 := by
      cases r with
      | zero => omega
      | succ r' => exact ⟨r', rfl⟩
    have hdone : retryLoop data.length getObj r' (getObj b) b = ((getObj b).chunks, []) := by
      apply retryLoop_done
      rw [hget b hb hbL]
      simp only [List.map_cons, List.map_nil, List.sum_cons, List.sum_nil, List.length_drop]
      omega
    rw [retryLoop_retry]
    · simp only [Nat.zero_add, hsum]
      rw [hdone, hget b hb hbL]
    · simp only [Nat.zero_add, hsum]
      omega
  · rw [List.flatten_append, hinit]
    simp [List.take_append_drop]

/-- C3 witness: `swift_retry_iter_resumed_download` at a concrete
three-byte download interrupted after one byte. -/
theorem swift_retry_iter_resumed_download_witness :
    (0 < 1 ∧ 1 < ([5, 6, 7] : List Nat).length ∧ 1 ≤ 1)
    ∧ swift_retry_iter ⟨[[5]], true⟩ ([5, 6, 7] : List Nat).length none 1
        (fun o => ⟨[([5, 6, 7] : List Nat).drop o], true⟩)
      = ([[5]] ++ [([5, 6, 7] : List Nat).drop 1], [1]) :=
  ⟨by decide,
    (swift_retry_iter_resumed_download [5, 6, 7] 1 1 [[5]]
      (fun o => ⟨[([5, 6, 7] : List Nat).drop o], true⟩)
      (by decide) (by decide) (by decide) (by decide) (fun o _ _ => rfl)).1⟩

/-- C4 counterexample: unknown expected length (declared 0), a plain
stream with no length attribute that is exhausted normally after
delivering one byte, and retry budget 1.  Because the code compares the
delivered byte count against the (zero) expected length, it does issue a
ranged re-request (at offset 1) instead of stopping normally. -/
theorem swift_retry_iter_unknown_requests_range_cex :
    swift_retry_iter ⟨[[7]], false⟩ 0 none 1 (fun _ => ⟨[], false⟩) = ([[7]], [1])
    ∧ (swift_retry_iter ⟨[[7]], false⟩ 0 none 1 (fun _ => ⟨[], false⟩)).2 ≠ [] := by
  decide

/-- C4 (amended): with unknown expected length (declared 0) and a plain
iterator with no length attribute, the iterator stops with no ranged
re-request exactly when the stream delivered zero bytes or the retry
budget is zero; when the stream delivered `n > 0` bytes and the budget is
at least 1, a ranged re-request at offset `n` is issued. -/
theorem swift_retry_iter_unknown_length (rc : Nat) (resp : RespStream)
    (getObj : Nat → RespStream) :
    (((resp.chunks.map List.length).sum = 0 ∨ rc = 0) →
      swift_retry_iter resp 0 none rc getObj = (resp.chunks, []))
    ∧ (0 < (resp.chunks.map List.length).sum → 0 < rc →
      ∃ restChunks restOffs,
        swift_retry_iter resp 0 none rc getObj
          = (resp.chunks ++ restChunks,
             (resp.chunks.map List.length).sum :: restOffs)) := by
  have hiter : swift_retry_iter resp 0 none rc getObj
      = retryLoop 0 getObj rc resp 0 := by
    simp [swift_retry_iter]
  constructor
  · rintro (hn | rfl)
    · rw [hiter, retryLoop_done]
      omega
    · by_cases hn : (resp.chunks.map List.length).sum = 0
      · rw [hiter, retryLoop_done]
        omega
      · rw [hiter, retryLoop_exhausted]
        omega
  · intro hn hrc
    obtain ⟨rc', rfl⟩ : ∃ rc', rc = rc' + 1 := by
      cases rc with
      | zero => omega
      | succ rc' => exact ⟨rc', rfl⟩
    rw [hiter, retryLoop_retry _ _ _ _ _ (by omega)]
    simp only [Nat.zero_add]
    exact ⟨_, _, rfl⟩

/-- C4 witness: `swift_retry_iter_unknown_length` at a concrete one-byte
stream with budget 1. -/
theorem swift_retry_iter_unknown_length_witness :
    (0 < ((([[7]] : List (List Nat))).map List.length).sum ∧ 0 < 1)
    ∧ ∃ restChunks restOffs,
        swift_retry_iter ⟨[[7]], false⟩ 0 none 1 (fun _ => ⟨[], false⟩)
          = ([[7]] ++ restChunks,
             ((([[7]] : List (List Nat))).map List.length).sum :: restOffs) :=
  ⟨by decide,
    (swift_retry_iter_unknown_length 1 ⟨[[7]], false⟩ (fun _ => ⟨[], false⟩)).2
      (by decide) (by decide)⟩

end GlanceSwift

namespace GlanceSwift

/-! ### Theorems about the segmented upload (claims C1 and C2) -/

/-- Specification of the segment sequence the upload loop produces when
`rem` bytes remain and the next chunk id is `j`: each segment takes
`min segSize rem` bytes until nothing remains.  `fuel ≥ rem` makes the
recursion structural; since every segment is non-empty (for `0 < segSize`)
the fuel is never exhausted. -/
def segSeq (obj : String) (segSize : Nat) : Nat → Nat → Nat → List (String × Nat)
  | fuel, rem, j =>
    if rem = 0 then []
    else
      match fuel with
      | 0 => []
      | fuel' + 1 =>
        (segName obj j, min segSize rem) :: segSeq obj segSize fuel' (rem - min segSize rem) (j + 1)

/-- `"%05d" % n` is exactly five characters for `n < 100000`. -/
theorem pad5_length (n : Nat) (h : n < 100000) : (pad5 n).length = 5 := by
  have hr : (Nat.repr n).length ≤ 5 := by
    apply Nat.repr_length n 5 (by norm_num)
    norm_num [h]
  have hm : (String.mk (List.replicate (5 - (Nat.repr n).length) '0')).length
      = 5 - (Nat.repr n).length := by
    show (List.replicate (5 - (Nat.repr n).length) '0').length = _
    simp
  simp only [pad5, String.length_append, hm]
  omega

/-- A segment name is the object name, a dash, and a 5-digit zero-padded
index (for indices below 100000). -/
theorem segName_length (obj : String) (n : Nat) (h : n < 100000) :
    (segName obj n).length = obj.length + 6 := by
  simp only [segName, String.length_append, pad5_length n h]
  rfl

/-- `segSeq` base case: nothing remains, no segments. -/
theorem segSeq_zero (obj : String) (segSize : Nat) (fuel j : Nat) :
    segSeq obj segSize fuel 0 j = [] := by
  rw [segSeq.eq_def]
  simp

/-- `segSeq` step case: with `rem ≠ 0` the next segment takes
`min segSize rem` bytes. -/
theorem segSeq_succ (obj : String) (segSize : Nat) (fuel rem j : Nat) (h : rem ≠ 0) :
    segSeq obj segSize (fuel + 1) rem j
      = (segName obj j, min segSize rem)
          :: segSeq obj segSize fuel (rem - min segSize rem) (j + 1) := by
  rw [segSeq.eq_def]
  simp [h]

/-- The segment sequence for `rem` remaining bytes has exactly
`ceil(rem / segSize)` entries. -/
theorem segSeq_length (obj : String) (segSize : Nat) (hseg : 0 < segSize) :
    ∀ fuel rem j, rem ≤ fuel →
      (segSeq obj segSize fuel rem j).length = (rem + segSize - 1) / segSize := by
  intro fuel
  induction fuel with
  | zero =>
    intro rem j h
    obtain rfl : rem = 0 := by omega
    rw [segSeq_zero]
    simp only [List.length_nil]
    symm
    apply Nat.div_eq_of_lt
    omega
  | succ fuel ih =>
    intro rem j h
    by_cases hrem : rem = 0
    · subst hrem
      rw [segSeq_zero]
      simp only [List.length_nil]
      symm
      apply Nat.div_eq_of_lt
      omega
    · rw [segSeq_succ _ _ _ _ _ hrem, List.length_cons,
        ih (rem - min segSize rem) (j + 1) (by omega)]
      rcases le_or_lt segSize rem with hc | hc
      · rw [Nat.min_eq_left hc]
        have e1 : rem + segSize - 1 = (rem - segSize + segSize - 1) + segSize := by omega
        rw [e1, Nat.add_div_right _ hseg]
      · rw [Nat.min_eq_right (le_of_lt hc)]
        have e0 : rem - rem = 0 := by omega
        have h2 : (0 + segSize - 1) / segSize = 0 := Nat.div_eq_of_lt (by omega)
        rw [e0, h2]
        have e1 : rem + segSize - 1 = (rem - 1) + segSize := by omega
        rw [e1, Nat.add_div_right _ hseg, Nat.div_eq_of_lt (by omega)]

/-- The byte lengths of the segment sequence sum to the remaining size. -/
theorem segSeq_sum (obj : String) (segSize : Nat) (hseg : 0 < segSize) :
    ∀ fuel rem j, rem ≤ fuel →
      ((segSeq obj segSize fuel rem j).map Prod.snd).sum = rem := by
  intro fuel
  induction fuel with
  | zero =>
    intro rem j h
    obtain rfl : rem = 0 := by omega
    rw [segSeq_zero]
    simp
  | succ fuel ih =>
    intro rem j h
    by_cases hrem : rem = 0
    · subst hrem
      rw [segSeq_zero]
      simp
    · rw [segSeq_succ _ _ _ _ _ hrem]
      simp only [List.map_cons, List.sum_cons]
      rw [ih (rem - min segSize rem) (j + 1) (by omega)]
      omega

/-- The segment names are contiguous indices starting at `j`. -/
theorem segSeq_names (obj : String) (segSize : Nat) (hseg : 0 < segSize) :
    ∀ fuel rem j, rem ≤ fuel →
      (segSeq obj segSize fuel rem j).map Prod.fst
        = (List.range (segSeq obj segSize fuel rem j).length).map
            (fun i => segName obj (j + i)) := by
  intro fuel
  induction fuel with
  | zero =>
    intro rem j h
    obtain rfl : rem = 0 := by omega
    rw [segSeq_zero]
    simp
  | succ fuel ih =>
    intro rem j h
    by_cases hrem : rem = 0
    · subst hrem
      rw [segSeq_zero]
      simp
    · rw [segSeq_succ _ _ _ _ _ hrem]
      simp only [List.map_cons, List.length_cons, List.range_succ_eq_map, List.map_map]
      rw [ih (rem - min segSize rem) (j + 1) (by omega)]
      congr 1
      apply List.map_congr_left
      intro i hi
      congr 1
      omega

/-- Loop unfolding: `left == 0` breaks out of the loop with the chunks
written so far. -/
theorem addChunkLoop_break (container obj : String) (segSize s : Nat)
    (putErr : Nat → Option SwiftErr) (delFails : String → Bool)
    (fuel : Nat) (fd checksum : List Nat) (written : List (String × Nat)) (c j : Nat)
    (hsc : s ≠ 0 ∧ s - c = 0) :
    addChunkLoop container obj segSize s putErr delFails fuel fd checksum written c j
      = LoopOutcome.ok written s checksum := by
  rw [addChunkLoop.eq_def]
  simp [hsc.1, hsc.2]

/-- Loop unfolding: a failing segment PUT deletes the stale chunks
recorded so far and re-raises. -/
theorem addChunkLoop_fail (container obj : String) (segSize s : Nat)
    (putErr : Nat → Option SwiftErr) (delFails : String → Bool) (e : SwiftErr)
    (fuel : Nat) (fd checksum : List Nat) (written : List (String × Nat)) (c j : Nat)
    (hns : ¬ (s ≠ 0 ∧ s - c = 0)) (hfd : fd ≠ []) (hpe : putErr j = some e) :
    addChunkLoop container obj segSize s putErr delFails fuel fd checksum written c j
      = LoopOutcome.failed written
          (delete_stale_chunks container delFails (written.map Prod.fst)) e := by
  rw [addChunkLoop.eq_def]
  obtain ⟨a, as, rfl⟩ : ∃ a as, fd = a :: as := by
    cases fd with
    | nil => exact absurd rfl hfd
    | cons a as => exact ⟨a, as, rfl⟩
  simp [hns, hpe]

/-- Loop unfolding: a successful segment PUT records the chunk and
continues with the source advanced. -/
theorem addChunkLoop_put (container obj : String) (segSize s : Nat)
    (putErr : Nat → Option SwiftErr) (delFails : String → Bool)
    (fuel : Nat) (fd checksum : List Nat) (written : List (String × Nat)) (c j : Nat)
    (hns : ¬ (s ≠ 0 ∧ s - c = 0)) (hfd : fd ≠ []) (hpe : putErr j = none) :
    addChunkLoop container obj segSize s putErr delFails (fuel + 1) fd checksum written c j
      = addChunkLoop container obj segSize s putErr delFails fuel
          (fd.drop (max 1 (min (if s = 0 then segSize else min segSize (s - c)) fd.length)))
          (checksum ++ fd.take (min (if s = 0 then segSize else min segSize (s - c)) fd.length))
          (written ++ [(segName obj j,
            min (if s = 0 then segSize else min segSize (s - c)) fd.length)])
          (c + min (if s = 0 then segSize else min segSize (s - c)) fd.length)
          (j + 1) := by
  conv_lhs => rw [addChunkLoop.eq_def]
  obtain ⟨a, as, rfl⟩ : ∃ a as, fd = a :: as := by
    cases fd with
    | nil => exact absurd rfl hfd
    | cons a as => exact ⟨a, as, rfl⟩
  simp [hns, hpe]

/-- Invariant of the failure-free loop with an exactly-sized source: from
state `(c, j)` with `rem = s - c` bytes remaining in the stream, the loop
writes exactly the segments of `segSeq`, checksums the whole remaining
stream, and reports size `s`. -/
theorem addChunkLoop_ok (container obj : String) (segSize s : Nat)
    (delFails : String → Bool) (hseg : 0 < segSize) (hs : 0 < s) :
    ∀ fuelS rem fuel fd checksum written c j,
      c + rem = s → fd.length = rem → rem ≤ fuel → rem ≤ fuelS →
      addChunkLoop container obj segSize s (fun _ => none) delFails fuel fd checksum written c j
        = LoopOutcome.ok (written ++ segSeq obj segSize fuelS rem j) s (checksum ++ fd) := by
  intro fuelS
  induction fuelS with
  | zero =>
    intro rem fuel fd checksum written c j hc hfd hf hfs
    obtain rfl : rem = 0 := by omega
    obtain rfl : fd = [] := List.length_eq_zero.mp hfd
    rw [addChunkLoop_break container obj segSize s _ delFails fuel [] checksum written c j
      ⟨by omega, by omega⟩, segSeq_zero]
    simp
  | succ fuelS ih =>
    intro rem fuel fd checksum written c j hc hfd hf hfs
    by_cases hrem : rem = 0
    · subst hrem
      obtain rfl : fd = [] := List.length_eq_zero.mp hfd
      rw [addChunkLoop_break container obj segSize s _ delFails fuel [] checksum written c j
        ⟨by omega, by omega⟩, segSeq_zero]
      simp
    · have hfdne : fd ≠ [] := by
        intro hnil
        rw [hnil] at hfd
        simp at hfd
        omega
      obtain ⟨fl, rfl⟩ : ∃ fl, fuel = fl + 1 := by
        cases fuel with
        | zero => omega
        | succ fl => exact ⟨fl, rfl⟩
      rw [addChunkLoop_put container obj segSize s _ delFails fl fd checksum written c j
        (by omega) hfdne rfl]
      have hchunk : (if s = 0 then segSize else min segSize (s - c)) = min segSize rem := by
        rw [if_neg (by omega)]
        congr 1
        omega
      rw [hchunk, hfd]
      have hbytes : min (min segSize rem) rem = min segSize rem := by omega
      have hmax : max 1 (min segSize rem) = min segSize rem := by omega
      rw [hbytes, hmax]
      rw [ih (rem - min segSize rem) fl (fd.drop (min segSize rem))
        (checksum ++ fd.take (min segSize rem))
        (written ++ [(segName obj j, min segSize rem)])
        (c + min segSize rem) (j + 1)
        (by omega) (by simp [hfd]) (by omega) (by omega)]
      rw [segSeq_succ _ _ _ _ _ hrem]
      simp [List.append_assoc]

/-- Peeling a shifted range-map from the front. -/
theorem range_map_shift {α : Type} (f : Nat → α) (d j : Nat) :
    (List.range (d + 1)).map (fun i => f (j + i))
      = f j :: (List.range d).map (fun i => f (j + 1 + i)) := by
  rw [List.range_succ_eq_map, List.map_cons, List.map_map]
  congr 1
  apply List.map_congr_left
  intro i hi
  simp only [Function.comp_apply]
  congr 1
  omega

/-- C1: for every `add` of a declared size `s` at or above the
large-object threshold whose source stream supplies exactly `s` bytes,
`add` writes exactly `ceil(s / segSize)` segment objects with contiguous
1-based, 5-digit zero-padded indices suffixed to the identifier, plus one
manifest object at the primary name, and the segment byte lengths sum to
`s`. -/
theorem BaseStore.add_segmented (container obj : String)
    (largeObjectSize segSize s : Nat) (fd : List Nat) (delFails : String → Bool)
    (hseg : 0 < segSize) (hth : 0 < largeObjectSize) (hs : largeObjectSize ≤ s)
    (hfd : fd.length = s) :
    ∃ ws : List (String × Nat),
      BaseStore.add container obj largeObjectSize segSize fd s (fun _ => none) none delFails
        = AddResult.ok ((ws.map (fun w => SwiftOp.putObject container w.1 w.2))
            ++ [SwiftOp.putManifest container obj]) s fd
      ∧ ws.length = (s + segSize - 1) / segSize
      ∧ ws.map Prod.fst = (List.range ws.length).map (fun i => segName obj (1 + i))
      ∧ (ws.map Prod.snd).sum = s
      ∧ (∀ i, 0 < i → i < 100000 → (segName obj i).length = obj.length + 6) := by
  have hs0 : 0 < s := by omega
  have hloop := addChunkLoop_ok container obj segSize s delFails hseg hs0
    s s fd.length fd [] [] 0 1 (by omega) hfd (by omega) (by omega)
  refine ⟨segSeq obj segSize s s 1, ?_, ?_, ?_, ?_, ?_⟩
  · rw [BaseStore.add, if_neg (not_not_intro (Or.inr hs))]
    rw [hloop]
    simp
  · exact segSeq_length obj segSize hseg s s 1 (le_refl s)
  · exact segSeq_names obj segSize hseg s s 1 (le_refl s)
  · exact segSeq_sum obj segSize hseg s s 1 (le_refl s)
  · intro i hi hi5
    exact segName_length obj i hi5

/-- C1 witness: `BaseStore.add_segmented` at a concrete 10-byte image,
threshold 5, segment size 4. -/
theorem BaseStore.add_segmented_witness :
    (0 < 4 ∧ 0 < 5 ∧ 5 ≤ 10 ∧ ([0, 1, 2, 3, 4, 5, 6, 7, 8, 9] : List Nat).length = 10)
    ∧ ∃ ws : List (String × Nat),
      BaseStore.add "c" "img" 5 4 [0, 1, 2, 3, 4, 5, 6, 7, 8, 9] 10
          (fun _ => none) none (fun _ => false)
        = AddResult.ok ((ws.map (fun w => SwiftOp.putObject "c" w.1 w.2))
            ++ [SwiftOp.putManifest "c" "img"]) 10 [0, 1, 2, 3, 4, 5, 6, 7, 8, 9]
      ∧ ws.length = (10 + 4 - 1) / 4
      ∧ ws.map Prod.fst = (List.range ws.length).map (fun i => segName "img" (1 + i))
      ∧ (ws.map Prod.snd).sum = 10
      ∧ (∀ i, 0 < i → i < 100000 → (segName "img" i).length = "img".length + 6) :=
  ⟨by decide,
    BaseStore.add_segmented "c" "img" 5 4 10 [0, 1, 2, 3, 4, 5, 6, 7, 8, 9]
      (fun _ => false) (by decide) (by decide) (by decide) (by decide)⟩

/-- Invariant of the loop when the PUT of chunk `k` fails: chunks `j` to
`k - 1` (all of full segment size while chunk `k` is still reachable) are
written, then the failure at chunk `k` deletes every recorded chunk and
re-raises. -/
theorem addChunkLoop_fails_at (container obj : String) (segSize s k : Nat) (e : SwiftErr)
    (delFails : String → Bool) (hseg : 0 < segSize) (hk : 1 ≤ k)
    (hreach : (k - 1) * segSize < s) :
    ∀ d j fuel fd checksum written c,
      j + d = k → 1 ≤ j → c = (j - 1) * segSize → fd.length = s - c → s - c ≤ fuel →
      addChunkLoop container obj segSize s (fun i => if i = k then some e else none) delFails
          fuel fd checksum written c j
        = LoopOutcome.failed
            (written ++ (List.range d).map (fun i => (segName obj (j + i), segSize)))
            (delete_stale_chunks container delFails
              ((written ++ (List.range d).map (fun i => (segName obj (j + i), segSize))).map
                Prod.fst))
            e := by
  intro d
  induction d with
  | zero =>
    intro j fuel fd checksum written c hjk hj hcval hfd hfuel
    obtain rfl : j = k := by omega
    have hcs : c < s := by
      rw [hcval]
      exact hreach
    have hfdne : fd ≠ [] := by
      intro hnil
      rw [hnil] at hfd
      simp at hfd
      omega
    rw [addChunkLoop_fail container obj segSize s _ delFails e fuel fd checksum written c j
      (by omega) hfdne (by simp)]
    simp
  | succ d ihd =>
    intro j fuel fd checksum written c hjk hj hcval hfd hfuel
    have hjk' : j < k := by omega
    have hcmul : c + segSize = j * segSize := by
      rw [hcval]
      have h1 : j - 1 + 1 = j := by omega
      calc (j - 1) * segSize + segSize = ((j - 1) + 1) * segSize := by ring
      _ = j * segSize := by rw [h1]
    have hjs : j * segSize ≤ (k - 1) * segSize :=
      Nat.mul_le_mul_right _ (by omega)
    have h5 : c + segSize < s := by
      rw [hcmul]
      exact lt_of_le_of_lt hjs hreach
    have hfdne : fd ≠ [] := by
      intro hnil
      rw [hnil] at hfd
      simp at hfd
      omega
    obtain ⟨fl, rfl⟩ : ∃ fl, fuel = fl + 1 := by
      cases fuel with
      | zero => omega
      | succ fl => exact ⟨fl, rfl⟩
    rw [addChunkLoop_put container obj segSize s _ delFails fl fd checksum written c j
      (by omega) hfdne (by simp [show j ≠ k by omega])]
    have hchunk : (if s = 0 then segSize else min segSize (s - c)) = segSize := by
      rw [if_neg (by omega)]
      exact Nat.min_eq_left (by omega)
    rw [hchunk, hfd]
    have hbytes : min segSize (s - c) = segSize := Nat.min_eq_left (by omega)
    have hmax : max 1 segSize = segSize := by omega
    rw [hbytes, hmax]
    rw [ihd (j + 1) fl (fd.drop segSize) (checksum ++ fd.take segSize)
      (written ++ [(segName obj j, segSize)]) (c + segSize)
      (by omega) (by omega) (by rw [hcmul, Nat.add_sub_cancel])
      (by rw [List.length_drop, hfd]; omega) (by omega)]
    rw [range_map_shift (fun i => (segName obj i, segSize)) d j]
    simp [List.append_assoc]

/-- C2: when the PUT of segment `k` fails during a segmented `add` whose
source supplies exactly the declared bytes, the trace consists of the PUTs
of segments `1..k-1` followed by one delete attempt for every previously
recorded segment (for every pattern of per-segment delete failures —
best-effort cleanup), no manifest is ever written, and `add` re-raises the
failure (routed through its outer exception handler `addRaise`). -/
theorem BaseStore.add_segment_failure (container obj : String)
    (largeObjectSize segSize s k : Nat) (fd : List Nat) (e : SwiftErr)
    (delFails : String → Bool)
    (hseg : 0 < segSize) (hth : largeObjectSize ≤ s) (hk : 1 ≤ k)
    (hreach : (k - 1) * segSize < s) (hfd : fd.length = s) :
    BaseStore.add container obj largeObjectSize segSize fd s
        (fun i => if i = k then some e else none) none delFails
      = AddResult.err
          (((List.range (k - 1)).map
              (fun i => SwiftOp.putObject container (segName obj (1 + i)) segSize))
            ++ ((List.range (k - 1)).map
              (fun i => SwiftOp.deleteObject container (segName obj (1 + i)))))
          (addRaise e)
    ∧ SwiftOp.putManifest container obj ∉
        (BaseStore.add container obj largeObjectSize segSize fd s
          (fun i => if i = k then some e else none) none delFails).ops := by
  have hloop := addChunkLoop_fails_at container obj segSize s k e delFails hseg hk hreach
    (k - 1) 1 fd.length fd [] [] 0
    (by omega) (by omega) (by simp) (by omega) (by omega)
  have hmain : BaseStore.add container obj largeObjectSize segSize fd s
      (fun i => if i = k then some e else none) none delFails
    = AddResult.err
        (((List.range (k - 1)).map
            (fun i => SwiftOp.putObject container (segName obj (1 + i)) segSize))
          ++ ((List.range (k - 1)).map
            (fun i => SwiftOp.deleteObject container (segName obj (1 + i)))))
        (addRaise e) := by
    rw [BaseStore.add, if_neg (not_not_intro (Or.inr hth))]
    rw [hloop]
    simp [delete_stale_chunks, List.map_map, Function.comp_def]
  refine ⟨hmain, ?_⟩
  rw [hmain]
  simp [AddResult.ops, List.mem_append, List.mem_map]

/-- C2 witness: `BaseStore.add_segment_failure` at a concrete upload whose
second segment PUT fails, with every cleanup delete also failing. -/
theorem BaseStore.add_segment_failure_witness :
    (0 < 4 ∧ 5 ≤ 10 ∧ 1 ≤ 2 ∧ (2 - 1) * 4 < 10
      ∧ ([0, 1, 2, 3, 4, 5, 6, 7, 8, 9] : List Nat).length = 10)
    ∧ BaseStore.add "c" "img" 5 4 [0, 1, 2, 3, 4, 5, 6, 7, 8, 9] 10
        (fun i => if i = 2 then some (SwiftErr.otherErr "boom") else none) none
        (fun _ => true)
      = AddResult.err
          (((List.range (2 - 1)).map
              (fun i => SwiftOp.putObject "c" (segName "img" (1 + i)) 4))
            ++ ((List.range (2 - 1)).map
              (fun i => SwiftOp.deleteObject "c" (segName "img" (1 + i)))))
          (addRaise (SwiftErr.otherErr "boom")) :=
  ⟨by decide,
    (BaseStore.add_segment_failure "c" "img" 5 4 10 2 [0, 1, 2, 3, 4, 5, 6, 7, 8, 9]
      (SwiftErr.otherErr "boom") (fun _ => true)
      (by decide) (by decide) (by decide) (by decide) (by decide)).1⟩

end GlanceSwift
